import Mathlib

/-!
Verification of the ATLAS academic-assistance repository (studychain01/Agents).

A shallow embedding, in Lean 4, of the parts of the codebase the specification
talks about:

* `dict_reducer` (src/ATLAS/models/state.py lines 14-41; byte-identical copy in
  src/ATLAS/Extras/app.py lines 67-84) — recursive dictionary merge used as the
  LangGraph state reducer;
* `parse_coordinator_response` (src/ATLAS/Extras/app.py; defined twice, at
  lines 640-737 and lines 853-920 — at module load the second definition
  rebinds the name, so the first is shadowed) and the coordinator fallbacks
  (`coordinator_agent`, lines 775-851);
* `AgentExecutor.execute` (src/ATLAS/Extras/app.py lines 337-435) — concurrent
  group execution with fallback and emergency handling;
* `should_end` (src/ATLAS/Extras/app.py lines 1799-1814, inside
  `create_agents_graph`) — workflow loop-termination check;
* `DataManager.get_upcoming_events` and `DataManager.get_active_tasks`
  (src/ATLAS/utils/data_manager.py lines 91-133 and 135-182);
* `NeMoLLaMa.agenerate` temperature forwarding (src/ATLAS/config/llm_config.py
  lines 59-87).

Python dictionaries are modelled as insertion-ordered association lists over
`String` keys; JSON-like values are the inductive type `Val`.  Datetime
parsing (`datetime.fromisoformat`, a Python library routine) is abstracted as
a parameter `parseDT : String → Option Int` mapping a datetime string to a UTC
instant in seconds (`none` models a `ValueError`), so instants are integers
and a horizon of `d` days is `d * 86400` seconds.  Fallible agent calls are
modelled with `Except`; exception values carry no information (`Unit`).
-/

/-- JSON-like Python values: strings, integers, booleans, nulls, lists and
string-keyed dictionaries (as insertion-ordered association lists). -/
inductive Val where
  | str : String → Val
  | int : Int → Val
  | bool : Bool → Val
  | null : Val
  | list : List Val → Val
  | dict : List (String × Val) → Val
deriving Repr

/-- Python `isinstance(v, dict)` for our value type. -/
def Val.isDict : Val → Bool
  | .dict _ => true
  | _ => false

/-- Python `d[k]` lookup (as an option): first entry with the given key.
A Python dict has at most one entry per key; on the association-list
representation this is the usual first-match lookup. -/
def lookupKey {α : Type} (d : List (String × α)) (k : String) : Option α :=
  match d with
  | [] => none
  | (k', v) :: rest => if k' = k then some v else lookupKey rest k

/-- Python `d[k] = v` assignment: replace the value in place if the key is
present (Python dicts keep the original insertion position on update),
otherwise append the new entry at the end. -/
def setKey {α : Type} (d : List (String × α)) (k : String) (v : α) : List (String × α) :=
  match d with
  | [] => [(k, v)]
  | (k', v') :: rest => if k' = k then (k, v) :: rest else (k', v') :: setKey rest k v

/-- The keys of a dictionary, in insertion order (Python `d.keys()`). -/
def dictKeys {α : Type} (d : List (String × α)) : List String := d.map Prod.fst

/-- A well-formed Python dict never has a duplicated key. -/
def NodupKeys {α : Type} (d : List (String × α)) : Prop := (dictKeys d).Nodup

/-- The function `dict_reducer` of src/ATLAS/models/state.py lines 14-41 (the
copy in src/ATLAS/Extras/app.py lines 67-84 is byte-identical):

    merged = dict1.copy()
    for key, value in dict2.items():
        if key in merged and isinstance(merged[key], dict) and isinstance(value, dict):
            merged[key] = dict_reducer(merged[key], value)
        else:
            merged[key] = value
    return merged

The iteration over `dict2.items()` is recursion on the second association
list, threading the accumulating `merged` dictionary; the `if` on
`key in merged and isinstance(merged[key], dict) and isinstance(value, dict)`
is the match on `lookupKey dict1 key` and `value`, whose first arm is the
both-are-dicts case and whose catch-all arm is the `else` branch. -/
def dict_reducer (dict1 : List (String × Val)) : List (String × Val) → List (String × Val)
  | [] => dict1
  | (key, value) :: rest =>
    match lookupKey dict1 key, value with
    | some (Val.dict m), Val.dict n =>
        dict_reducer (setKey dict1 key (Val.dict (dict_reducer m n))) rest
    | _, _ => dict_reducer (setKey dict1 key value) rest
termination_by d2 => sizeOf d2
decreasing_by
  all_goals simp
  all_goals omega

/-- The per-key merge step of `dict_reducer`: recursive merge when both sides
are dictionaries, otherwise the value from the second dictionary wins. -/
def stepVal : Option Val → Val → Val
  | some (Val.dict m), Val.dict n => Val.dict (dict_reducer m n)
  | _, v => v

/-- Key-wise description of the merged dictionary: a key absent from `d2`
keeps its `d1` value; a key present in `d2` gets the `stepVal` merge of the
two values. -/
def mergedLookup (d1 d2 : List (String × Val)) (k : String) : Option Val :=
  match lookupKey d2 k with
  | none => lookupKey d1 k
  | some v => some (stepVal (lookupKey d1 k) v)

/-- Whether the pattern is a prefix of the character list. -/
def listStarts (pat : List Char) : List Char → Bool :=
  fun hay =>
    match pat, hay with
    | [], _ => true
    | _ :: _, [] => false
    | p :: ps, h :: hs => p == h && listStarts ps hs

/-- Whether the pattern occurs as a contiguous sublist. -/
def listHasSub (pat : List Char) : List Char → Bool
  | [] => listStarts pat []
  | h :: hs => listStarts pat (h :: hs) || listHasSub pat hs

/-- Python substring containment `pat in s`. -/
def strHasSub (s pat : String) : Bool := listHasSub pat.toList s.toList

/-- Python `s.lower()` (ASCII case folding, which is all the code relies on). -/
def strLower (s : String) : String := String.mk (s.toList.map Char.toLower)

/-- The analysis dictionary built by `parse_coordinator_response`: keys
`required_agents`, `priority`, `concurrent_groups`, `reasoning`.  `priority`
is a string-keyed dict of integers, kept as an association list. -/
structure CoordAnalysis where
  required_agents : List String
  priority : List (String × Nat)
  concurrent_groups : List (List String)
  reasoning : String
deriving Repr, DecidableEq

/-- The keyword list `notewriter_keywords` of the first (shadowed) definition
of `parse_coordinator_response`, src/ATLAS/Extras/app.py line 708. -/
def notewriter_keywords : List String :=
  ["create", "generate", "write", "notes", "study material", "content", "summary", "explain"]

/-- The keyword list `advisor_keywords` of the first (shadowed) definition of
`parse_coordinator_response`, src/ATLAS/Extras/app.py line 716. -/
def advisor_keywords : List String :=
  ["help", "advice", "guidance", "overwhelmed", "stressed", "struggling", "recommend"]

/-- The FIRST definition of `parse_coordinator_response`,
src/ATLAS/Extras/app.py lines 640-737.  At module load this binding is
rebound by the second definition (lines 853-920), so this version — the one
with the "Enhanced keyword detection" block — is dead code; it is embedded
here to compare the two.  The `try` body cannot raise, so only the success
path is modelled. -/
def parse_coordinator_response_shadowed (response : String) : CoordAnalysis :=
  let analysis : CoordAnalysis :=
    { required_agents := ["PLANNER"], priority := [("PLANNER", 1)],
      concurrent_groups := [["PLANNER"]], reasoning := "Default coordination" }
  let analysis :=
    if strHasSub response "Thought:" && strHasSub response "Decision:" then
      let analysis :=
        if strHasSub response "NoteWriter" || strHasSub (strLower response) "note" then
          { analysis with
            required_agents := analysis.required_agents ++ ["NOTEWRITER"],
            priority := setKey analysis.priority "NOTEWRITER" 2,
            concurrent_groups := [["PLANNER", "NOTEWRITER"]] }
        else analysis
      if strHasSub response "Advisor" || strHasSub (strLower response) "guidance" then
        { analysis with
          required_agents := analysis.required_agents ++ ["ADVISOR"],
          priority := setKey analysis.priority "ADVISOR" 3 }
      else analysis
    else analysis
  let query_lower := strLower response
  let analysis :=
    if notewriter_keywords.any (fun keyword => strHasSub query_lower keyword) then
      if analysis.required_agents.contains "NOTEWRITER" then analysis
      else
        { analysis with
          required_agents := analysis.required_agents ++ ["NOTEWRITER"],
          priority := setKey analysis.priority "NOTEWRITER" 1,
          concurrent_groups := [["NOTEWRITER"]] }
    else analysis
  let analysis :=
    if advisor_keywords.any (fun keyword => strHasSub query_lower keyword) then
      if analysis.required_agents.contains "ADVISOR" then analysis
      else
        { analysis with
          required_agents := analysis.required_agents ++ ["ADVISOR"],
          priority := setKey analysis.priority "ADVISOR" 2 }
    else analysis
  if strHasSub response "Thought:" && strHasSub response "Action:" then
    { analysis with
      reasoning := (((response.splitOn "Thought:").getD 1 "").splitOn "Action:").headD "" |>.trim }
  else analysis

/-- The SECOND definition of `parse_coordinator_response`,
src/ATLAS/Extras/app.py lines 853-920 — the binding that is in effect at run
time (it shadows the definition at lines 640-737):

    analysis = {"required_agents": ["PLANNER"], "priority": {"PLANNER": 1},
                "concurrent_groups": [["PLANNER"]], "reasoning": response}
    if "Thought:" in response and "Decision:" in response:
        if "NOTEWRITER" in response or "note" in response.lower():
            ... append NOTEWRITER, priority 2, groups [["PLANNER","NOTEWRITER"]]
        if "ADVISOR" in response or "guidance" in response.lower():
            ... append ADVISOR, priority 3
    return analysis

The `try` body cannot raise, so only the success path is modelled. -/
def parse_coordinator_response (response : String) : CoordAnalysis :=
  let analysis : CoordAnalysis :=
    { required_agents := ["PLANNER"], priority := [("PLANNER", 1)],
      concurrent_groups := [["PLANNER"]], reasoning := response }
  if strHasSub response "Thought:" && strHasSub response "Decision:" then
    let analysis :=
      if strHasSub response "NOTEWRITER" || strHasSub (strLower response) "note" then
        { analysis with
          required_agents := analysis.required_agents ++ ["NOTEWRITER"],
          priority := setKey analysis.priority "NOTEWRITER" 2,
          concurrent_groups := [["PLANNER", "NOTEWRITER"]] }
      else analysis
    if strHasSub response "ADVISOR" || strHasSub (strLower response) "guidance" then
      { analysis with
        required_agents := analysis.required_agents ++ ["ADVISOR"],
        priority := setKey analysis.priority "ADVISOR" 3 }
    else analysis
  else analysis

/-- The `except` fallback dictionary of `parse_coordinator_response`
(src/ATLAS/Extras/app.py lines 915-920). -/
def parse_fallback : CoordAnalysis :=
  { required_agents := ["PLANNER"], priority := [("PLANNER", 1)],
    concurrent_groups := [["PLANNER"]], reasoning := "Fallback due to parse error" }

/-- The `except` fallback coordinator analysis of `coordinator_agent`
(src/ATLAS/Extras/app.py lines 842-851). -/
def coordinator_error_analysis : CoordAnalysis :=
  { required_agents := ["PLANNER"], priority := [("PLANNER", 1)],
    concurrent_groups := [["PLANNER"]],
    reasoning := "Error in coordination. Falling back to planner." }

/-- The coordinator analysis put into the state by the success path of
`coordinator_agent` (src/ATLAS/Extras/app.py lines 826-837): the parsed
analysis with `reasoning` replaced by the raw LLM response. -/
def coordinator_agent_analysis (response : String) : CoordAnalysis :=
  let analysis := parse_coordinator_response response
  { required_agents := analysis.required_agents, priority := analysis.priority,
    concurrent_groups := analysis.concurrent_groups, reasoning := response }

/-- The invariant of claim C8 on a coordinator analysis: non-empty
`required_agents` containing PLANNER, a `priority` map containing PLANNER,
and a non-empty `concurrent_groups` list. -/
def CoordinatorInvariant (a : CoordAnalysis) : Prop :=
  a.required_agents ≠ [] ∧ "PLANNER" ∈ a.required_agents ∧
    (∃ p, ("PLANNER", p) ∈ a.priority) ∧ a.concurrent_groups ≠ []

/-- The fields of the `coordinator_analysis` dict that `AgentExecutor.execute`
reads (src/ATLAS/Extras/app.py lines 382-386). -/
structure ExecAnalysis where
  required_agents : List String
  concurrent_groups : List (List String)

/-- The agent table built in `AgentExecutor.__init__`
(src/ATLAS/Extras/app.py lines 331-335): keys of `self.agents`. -/
def executorAgents : List String := ["PLANNER", "NOTEWRITER", "ADVISOR"]

/-- The agents of a group on which `execute` creates a task
(src/ATLAS/Extras/app.py lines 394-398): those that are both in
`required_agents` and in `self.agents`. -/
def groupLaunch (required group : List String) : List String :=
  group.filter (fun agent_name => required.contains agent_name && executorAgents.contains agent_name)

/-- Processing of one concurrent group by `execute`
(src/ATLAS/Extras/app.py lines 392-408): launch the filtered agents, then
zip the FULL group list with the gathered results and record each non-raising
result under the lowercased agent name.  (The zip pairs `group` with the
results of the filtered task list, exactly as the Python does.) -/
def groupStep (run : String → Except Unit Val) (required : List String)
    (results : List (String × Val)) (group : List String) : List (String × Val) :=
  let tasks := groupLaunch required group
  if tasks.isEmpty then results
  else
    (group.zip (tasks.map run)).foldl
      (fun res p =>
        match p.2 with
        | Except.ok v => setKey res (strLower p.1) v
        | Except.error _ => res)
      results

/-- `analysis.get("required_agents", ["PLANNER"])` with a missing analysis
dict modelled as `none`. -/
def executeRequired (analysis : Option ExecAnalysis) : List String :=
  match analysis with
  | some a => a.required_agents
  | none => ["PLANNER"]

/-- `analysis.get("concurrent_groups", [])` with a missing analysis dict
modelled as `none`. -/
def executeGroups (analysis : Option ExecAnalysis) : List (List String) :=
  match analysis with
  | some a => a.concurrent_groups
  | none => []

/-- The structured return value of `execute`
(src/ATLAS/Extras/app.py lines 418-422). -/
def wrapOutputs (outputs : List (String × Val)) : Val :=
  Val.dict [("results", Val.dict [("agent_outputs", Val.dict outputs)])]

/-- The emergency fallback return value of `execute`
(src/ATLAS/Extras/app.py lines 427-435). -/
def emergencyFallback : Val :=
  Val.dict [("results", Val.dict [("agent_outputs", Val.dict [("planner",
    Val.dict [("plan",
      Val.str "Emergency fallback plan: Please try again or contact support.")])])])]

/-- `AgentExecutor.execute` (src/ATLAS/Extras/app.py lines 337-435).
`run name` models `await self.agents[name](state)` for the fixed input state:
`Except.error` is a raised exception.  Within a group, `asyncio.gather` with
`return_exceptions=True` returns exceptions as values, so only the fallback
call `await self.agents["PLANNER"](state)` (line 412) can raise out of the
`try`, landing in the `except` that returns the emergency fallback. -/
def execute (run : String → Except Unit Val) (analysis : Option ExecAnalysis) : Val :=
  let required := executeRequired analysis
  let results := (executeGroups analysis).foldl (groupStep run required) []
  if results.isEmpty && executorAgents.contains "PLANNER" then
    match run "PLANNER" with
    | Except.ok planner_result => wrapOutputs (setKey [] "planner" planner_result)
    | Except.error _ => emergencyFallback
  else wrapOutputs results

/-- The agents on which `execute` invokes `self.agents[...](state)`: the
filtered members of each concurrent group, plus PLANNER when the fallback of
lines 411-413 fires. -/
def executeLaunched (run : String → Except Unit Val) (analysis : Option ExecAnalysis) :
    List String :=
  let required := executeRequired analysis
  let groupsLaunched :=
    (executeGroups analysis).foldl (fun acc group => acc ++ groupLaunch required group) []
  let results := (executeGroups analysis).foldl (groupStep run required) []
  if results.isEmpty && executorAgents.contains "PLANNER" then groupsLaunched ++ ["PLANNER"]
  else groupsLaunched

/-- The pieces of `state["results"]` that `should_end` reads
(src/ATLAS/Extras/app.py lines 1811-1813); a missing key is `none`. -/
structure GraphState where
  coordinator_analysis : Option CoordAnalysis
  agent_outputs : Option (List (String × Val))

/-- The two routes out of the `execute` node
(src/ATLAS/Extras/app.py lines 1817-1824): loop back to `coordinator`,
or `END`. -/
inductive GraphRoute where
  | coordinator
  | stop
deriving Repr, DecidableEq

/-- `analysis.get("required_agents", [])` of `should_end`. -/
def requiredAgentsOf (st : GraphState) : List String :=
  match st.coordinator_analysis with
  | some a => a.required_agents
  | none => []

/-- `state["results"].get("agent_outputs", {}).keys()` of `should_end`. -/
def executedKeys (st : GraphState) : List String :=
  match st.agent_outputs with
  | some outputs => dictKeys outputs
  | none => []

/-- The completion check `should_end` (src/ATLAS/Extras/app.py lines
1799-1814): `END` when the set of lowercased required agent names is a subset
of the executed output keys, else back to `coordinator`. -/
def should_end (st : GraphState) : GraphRoute :=
  if (requiredAgentsOf st).all (fun a => (executedKeys st).contains (strLower a))
  then GraphRoute.stop else GraphRoute.coordinator

/-- The nested `start` dict of a calendar event, with its optional
`dateTime` field. -/
structure EventStart where
  dateTime : Option String
deriving Repr, DecidableEq

/-- A calendar event as read by `get_upcoming_events`: optional `date`,
`time` and `start` fields; `summary` stands for the rest of the payload. -/
structure Event where
  summary : String
  date : Option String
  time : Option String
  start : Option EventStart
deriving Repr, DecidableEq

/-- The per-event start instant computed by `get_upcoming_events`
(src/ATLAS/utils/data_manager.py lines 115-125): `date` + start of `time`
range when both are present, else `start.dateTime`, else skip (`none`).
`parseDT` abstracts `self.parse_datetime`; `none` is a raised `ValueError`,
which the surrounding `try` turns into a skip. -/
def eventStartTime (parseDT : String → Option Int) (e : Event) : Option Int :=
  match e.date, e.time with
  | some date, some time =>
      parseDT (date ++ "T" ++ ((time.splitOn "-").headD "") ++ ":00")
  | _, _ =>
      match e.start with
      | some s =>
          match s.dateTime with
          | some dt => parseDT dt
          | none => none
      | none => none

/-- The event loop of `get_upcoming_events`
(src/ATLAS/utils/data_manager.py lines 112-133): keep, in source order, the
events whose start instant is in `[now, future]`; skip events with neither
shape or with unparsable fields. -/
def upcomingLoop (parseDT : String → Option Int) (now future : Int) :
    List Event → List Event
  | [] => []
  | event :: rest =>
    match eventStartTime parseDT event with
    | some start_time =>
        if now ≤ start_time && start_time ≤ future then
          event :: upcomingLoop parseDT now future rest
        else upcomingLoop parseDT now future rest
    | none => upcomingLoop parseDT now future rest

/-- `DataManager.get_upcoming_events` (src/ATLAS/utils/data_manager.py lines
91-133).  `calendar_data = none` models a falsy `self.calendar_data`; the
`events` list is the `.get("events", [])` payload.  `future = now + days
* 86400` models `now + timedelta(days=days)` in seconds. -/
def get_upcoming_events (parseDT : String → Option Int)
    (calendar_data : Option (List Event)) (now : Int) (days : Int) : List Event :=
  match calendar_data with
  | none => []
  | some events => upcomingLoop parseDT now (now + days * 86400) events

/-- The events list of an optional calendar payload. -/
def calEvents (calendar_data : Option (List Event)) : List Event :=
  match calendar_data with
  | none => []
  | some events => events

/-- Specification-side predicate for claim C5: the parsed start instant lies
in the closed interval from `now` to `now + days * 86400`. -/
def eventInWindow (parseDT : String → Option Int) (now days : Int) (e : Event) : Bool :=
  match eventStartTime parseDT e with
  | some t => now ≤ t && t ≤ now + days * 86400
  | none => false

/-- A task record as read by `get_active_tasks`: optional `status`,
`due_date`, `due_time` and `due` fields, plus the `due_datetime` enrichment
slot (absent, i.e. `none`, until written).  `title` stands for the rest of
the payload. -/
structure TaskRec where
  title : String
  status : Option String
  due_date : Option String
  due_time : Option String
  due : Option String
  due_datetime : Option Int
deriving Repr, DecidableEq

/-- The task payload: `assignments` and `tasks` lists, a missing key being
the empty list (`.get(..., [])`). -/
structure TaskData where
  assignments : List TaskRec
  tasks : List TaskRec
deriving Repr, DecidableEq

/-- The `DataManager` state that `get_active_tasks` reads and mutates. -/
structure DataManagerState where
  task_data : Option TaskData
deriving Repr, DecidableEq

/-- The active statuses of src/ATLAS/utils/data_manager.py line 173. -/
def activeStatuses : List String := ["in_progress", "not_started", "needsAction"]

/-- The per-task due instant computed by `get_active_tasks`
(src/ATLAS/utils/data_manager.py lines 162-170): `due_date` + `due_time` when
both are present, else `due`, else skip. -/
def taskDueTime (parseDT : String → Option Int) (t : TaskRec) : Option Int :=
  match t.due_date, t.due_time with
  | some due_date, some due_time => parseDT (due_date ++ "T" ++ due_time ++ ":00")
  | _, _ =>
      match t.due with
      | some due => parseDT due
      | none => none

/-- `task.get("status") in ["in_progress", "not_started", "needsAction"]`. -/
def taskStatusActive (t : TaskRec) : Bool :=
  match t.status with
  | some s => activeStatuses.contains s
  | none => false

/-- The task loop of `get_active_tasks` (src/ATLAS/utils/data_manager.py
lines 160-180), with the in-place mutation `task["due_datetime"] = due_date`
made explicit: returns the post-loop record list (first component — the
records as they stand in `self.task_data` afterwards) and the `active_tasks`
list (second component).  An appended record IS the mutated stored record. -/
def activeLoop (parseDT : String → Option Int) (now : Int) :
    List TaskRec → List TaskRec × List TaskRec
  | [] => ([], [])
  | task :: rest =>
    let processed := activeLoop parseDT now rest
    match taskDueTime parseDT task with
    | none => (task :: processed.1, processed.2)
    | some due_date =>
        if taskStatusActive task && now < due_date then
          let enriched := { task with due_datetime := some due_date }
          (enriched :: processed.1, enriched :: processed.2)
        else (task :: processed.1, processed.2)

/-- The list the loop iterates over (src/ATLAS/utils/data_manager.py lines
156-158): `assignments` unless falsy, else `tasks`. -/
def chosenTaskList (td : TaskData) : List TaskRec :=
  if td.assignments.isEmpty then td.tasks else td.assignments

/-- `DataManager.get_active_tasks` (src/ATLAS/utils/data_manager.py lines
135-182) with the mutation of `self.task_data` made explicit: returns the
post-call manager state and the `active_tasks` list. -/
def get_active_tasks (parseDT : String → Option Int) (now : Int)
    (dm : DataManagerState) : DataManagerState × List TaskRec :=
  match dm.task_data with
  | none => (dm, [])
  | some td =>
    if td.assignments.isEmpty then
      let processed := activeLoop parseDT now td.tasks
      ({ task_data := some { td with tasks := processed.1 } }, processed.2)
    else
      let processed := activeLoop parseDT now td.assignments
      ({ task_data := some { td with assignments := processed.1 } }, processed.2)

/-- What one loop iteration of `get_active_tasks` leaves in the stored task
record: the `due_datetime` enrichment exactly when the task is counted
active, otherwise the record untouched. -/
def processTask (parseDT : String → Option Int) (now : Int) (task : TaskRec) : TaskRec :=
  match taskDueTime parseDT task with
  | none => task
  | some due_date =>
      if taskStatusActive task && now < due_date then
        { task with due_datetime := some due_date }
      else task

/-- Specification-side description of `activeTasks()` for claim C6, written
from the spec: the tasks whose status is in the active set and whose parsed
due instant is strictly in the future, each enriched with that instant. -/
def activeTasksSpec (parseDT : String → Option Int) (now : Int)
    (tasks : List TaskRec) : List TaskRec :=
  tasks.filterMap (fun task =>
    match taskDueTime parseDT task with
    | none => none
    | some due_date =>
        if taskStatusActive task && now < due_date then
          some { task with due_datetime := some due_date }
        else none)

/-- The task list a later reader of the manager state sees. -/
def dmChosenTasks (dm : DataManagerState) : List TaskRec :=
  match dm.task_data with
  | none => []
  | some td => chosenTaskList td

/-- `LLMConfig.model` (src/ATLAS/config/llm_config.py line 16). -/
def llm_model : String := "mistralai/mixtral-8x7b-instruct-v0.1"

/-- `LLMConfig.default_temp` (src/ATLAS/config/llm_config.py line 18).
Temperatures are exact rationals; only truthiness and identity of the values
0.0 and 0.5 matter here, which rationals represent exactly. -/
def default_temp : Rat := 1/2

/-- `LLMConfig.max_tokens` (src/ATLAS/config/llm_config.py line 17). -/
def llm_max_tokens : Nat := 1024

/-- The keyword arguments `NeMoLLaMa.agenerate` passes to
`self.client.chat.completions.create` (src/ATLAS/config/llm_config.py lines
80-86), apart from the message list. -/
structure CompletionRequest where
  model : String
  temperature : Rat
  max_tokens : Nat
deriving Repr, DecidableEq

/-- Python `temperature or default`: `or` returns its second operand when the
first is falsy, and both `None` and `0.0` are falsy. -/
def pyOrTemp (temperature : Option Rat) (defaultTemp : Rat) : Rat :=
  match temperature with
  | none => defaultTemp
  | some t => if t = 0 then defaultTemp else t

/-- The completion call issued by `NeMoLLaMa.agenerate` for a given
`temperature` argument (src/ATLAS/config/llm_config.py lines 59-87; the copy
in src/ATLAS/Extras/app.py lines 142-172 computes the same
`temperature or self.config.default_temp`). -/
def agenerateRequest (temperature : Option Rat) : CompletionRequest :=
  { model := llm_model,
    temperature := pyOrTemp temperature default_temp,
    max_tokens := llm_max_tokens }

/-- Concrete agent behaviour for the C3 counterexample: the one required
grouped agent (NOTEWRITER) raises, every other agent — in particular the
fallback PLANNER — succeeds. -/
def runCE3 : String → Except Unit Val :=
  fun name =>
    if name = "NOTEWRITER" then Except.error () else Except.ok (Val.str "recovered plan")

/-- Concrete coordinator analysis for the C3 counterexample: NOTEWRITER is
the only required agent and the only group member. -/
def analysisCE3 : Option ExecAnalysis :=
  some { required_agents := ["NOTEWRITER"], concurrent_groups := [["NOTEWRITER"]] }

/-- Concrete agent behaviour where every agent call raises. -/
def runFail : String → Except Unit Val := fun _ => Except.error ()

/-- Concrete coordinator analysis with PLANNER required and grouped. -/
def analysisW3 : Option ExecAnalysis :=
  some { required_agents := ["PLANNER"], concurrent_groups := [["PLANNER"]] }

/-- Concrete agent behaviour for the C4 witness: PLANNER succeeds, everything
else raises. -/
def runC4 : String → Except Unit Val :=
  fun name =>
    if name = "PLANNER" then Except.ok (Val.str "survivor plan") else Except.error ()

/-- A concrete datetime oracle: parses exactly one string. -/
def parseDT0 : String → Option Int :=
  fun s => if s = "2024-01-02T09:00:00Z" then some 90000 else none

/-- A concrete calendar event in the `start.dateTime` shape. -/
def eventW5 : Event :=
  { summary := "lecture", date := none, time := none,
    start := some { dateTime := some "2024-01-02T09:00:00Z" } }

/-- A concrete datetime oracle for the task witnesses. -/
def parseDTt : String → Option Int :=
  fun s => if s = "2024-01-02T09:00:00" then some 90000 else none

/-- A concrete task in the `due_date` + `due_time` shape. -/
def task0 : TaskRec :=
  { title := "homework", status := some "in_progress", due_date := some "2024-01-02",
    due_time := some "09:00", due := none, due_datetime := none }

/-- `task0` after the due-datetime enrichment. -/
def taskE : TaskRec := { task0 with due_datetime := some 90000 }

/-- A concrete manager state holding `task0` as the only assignment. -/
def dm0 : DataManagerState :=
  { task_data := some { assignments := [task0], tasks := [] } }

/-- A concrete workflow state where the only required agent has produced
output. -/
def graphStW7 : GraphState :=
  { coordinator_analysis := some parse_fallback,
    agent_outputs := some [("planner", Val.str "done")] }

/-! Association-list lemmas for Python-dict lookup and assignment. -/

theorem lookupKey_setKey_self {α : Type} (d : List (String × α)) (k : String) (v : α) :
    lookupKey (setKey d k v) k = some v := by
  induction d with
  | nil => simp [setKey, lookupKey]
  | cons p rest ih =>
    obtain ⟨k', v'⟩ := p
    by_cases h : k' = k <;> simp [setKey, lookupKey, h, ih]

theorem lookupKey_setKey_ne {α : Type} (d : List (String × α)) (k k' : String) (v : α)
    (h : k ≠ k') : lookupKey (setKey d k v) k' = lookupKey d k' := by
  induction d with
  | nil => simp [setKey, lookupKey, h]
  | cons p rest ih =>
    obtain ⟨k0, v0⟩ := p
    by_cases h0 : k0 = k
    · subst h0
      simp [setKey, lookupKey, h]
    · by_cases h1 : k0 = k'
      · subst h1
        simp [setKey, lookupKey, h0]
      · simp [setKey, lookupKey, h0, h1, ih]

theorem lookupKey_eq_none_of_not_mem {α : Type} (d : List (String × α)) (k : String)
    (h : k ∉ dictKeys d) : lookupKey d k = none := by
  induction d with
  | nil => simp [lookupKey]
  | cons p rest ih =>
    obtain ⟨k0, v0⟩ := p
    rw [dictKeys, List.map_cons] at h
    simp only [List.mem_cons, not_or] at h
    have h1 : ¬ k0 = k := fun e => h.1 e.symm
    simp [lookupKey, h1, ih h.2]

theorem dict_reducer_cons (d1 : List (String × Val)) (k0 : String) (v0 : Val)
    (rest : List (String × Val)) :
    dict_reducer d1 ((k0, v0) :: rest) =
      dict_reducer (setKey d1 k0 (stepVal (lookupKey d1 k0) v0)) rest := by
  cases hl : lookupKey d1 k0 with
  | none => cases v0 <;> simp [dict_reducer, stepVal, hl]
  | some w => cases w <;> cases v0 <;> simp [dict_reducer, stepVal, hl]

theorem lookupKey_dict_reducer (d2 : List (String × Val)) (d1 : List (String × Val))
    (h : NodupKeys d2) (k : String) :
    lookupKey (dict_reducer d1 d2) k = mergedLookup d1 d2 k := by
  induction d2 generalizing d1 with
  | nil => simp [dict_reducer, mergedLookup, lookupKey]
  | cons p rest ih =>
    obtain ⟨k0, v0⟩ := p
    simp only [NodupKeys, dictKeys, List.map_cons, List.nodup_cons] at h
    have h2 : NodupKeys rest := h.2
    rw [dict_reducer_cons, ih _ h2]
    by_cases hk : k = k0
    · subst hk
      have hrk : lookupKey rest k = none :=
        lookupKey_eq_none_of_not_mem _ _ (by simpa [dictKeys] using h.1)
      simp [mergedLookup, hrk, lookupKey, lookupKey_setKey_self]
    · have hne : k0 ≠ k := Ne.symm hk
      cases hrl : lookupKey rest k with
      | none =>
        simp [mergedLookup, hrl, lookupKey, hne, lookupKey_setKey_ne _ _ _ _ hne]
      | some v =>
        simp [mergedLookup, hrl, lookupKey, hne, lookupKey_setKey_ne _ _ _ _ hne]

theorem stepVal_of_not_both_dict (o : Option Val) (v1 v2 : Val)
    (ho : o = some v1) (h : ¬(v1.isDict = true ∧ v2.isDict = true)) :
    stepVal o v2 = v2 := by
  subst ho
  cases v1 <;> cases v2 <;> simp [stepVal, Val.isDict] at h ⊢

/-- C1: `dict_reducer` merges recursively: the spec's concrete example
evaluates as stated, and key-wise (for a well-formed second dict) a key that
maps to a dict in both inputs gets the recursive merge, any other collision
takes the second dict's value, and a key present in only one input keeps its
value. -/
theorem C1_dict_reducer_recursive_merge (d1 d2 : List (String × Val)) (h2 : NodupKeys d2) :
    (dict_reducer [("a", Val.dict [("x", Val.int 1)]), ("b", Val.int 2)]
        [("a", Val.dict [("y", Val.int 2)]), ("c", Val.int 3)] =
      [("a", Val.dict [("x", Val.int 1), ("y", Val.int 2)]), ("b", Val.int 2),
        ("c", Val.int 3)]) ∧
    (∀ k m n, lookupKey d1 k = some (Val.dict m) → lookupKey d2 k = some (Val.dict n) →
      lookupKey (dict_reducer d1 d2) k = some (Val.dict (dict_reducer m n))) ∧
    (∀ k v1 v2, lookupKey d1 k = some v1 → lookupKey d2 k = some v2 →
      ¬(v1.isDict = true ∧ v2.isDict = true) →
      lookupKey (dict_reducer d1 d2) k = some v2) ∧
    (∀ k v1, lookupKey d1 k = some v1 → lookupKey d2 k = none →
      lookupKey (dict_reducer d1 d2) k = some v1) ∧
    (∀ k v2, lookupKey d1 k = none → lookupKey d2 k = some v2 →
      lookupKey (dict_reducer d1 d2) k = some v2) := by
  refine ⟨by simp [dict_reducer, lookupKey, setKey], ?_, ?_, ?_, ?_⟩
  · intro k m n h1 hd2
    rw [lookupKey_dict_reducer _ _ h2 k]
    simp [mergedLookup, hd2, h1, stepVal]
  · intro k v1 v2 h1 hd2 hnd
    rw [lookupKey_dict_reducer _ _ h2 k]
    simp [mergedLookup, hd2, stepVal_of_not_both_dict _ _ _ h1 hnd]
  · intro k v1 h1 hd2
    rw [lookupKey_dict_reducer _ _ h2 k]
    simp [mergedLookup, hd2, h1]
  · intro k v2 h1 hd2
    rw [lookupKey_dict_reducer _ _ h2 k]
    simp [mergedLookup, hd2, h1, stepVal]

/-- Witness for C1 at the spec's concrete example, with every hypothesis
discharged on concrete input. -/
theorem C1_dict_reducer_recursive_merge_witness :
    NodupKeys [("a", Val.dict [("y", Val.int 2)]), ("c", Val.int 3)] ∧
    dict_reducer [("a", Val.dict [("x", Val.int 1)]), ("b", Val.int 2)]
        [("a", Val.dict [("y", Val.int 2)]), ("c", Val.int 3)] =
      [("a", Val.dict [("x", Val.int 1), ("y", Val.int 2)]), ("b", Val.int 2),
        ("c", Val.int 3)] :=
  ⟨by simp [NodupKeys, dictKeys],
    (C1_dict_reducer_recursive_merge [] [("a", Val.dict [("y", Val.int 2)]), ("c", Val.int 3)]
      (by simp [NodupKeys, dictKeys])).1⟩

/-- C2: evaluation of the run-time `parse_coordinator_response` (the second,
shadowing definition) on narratives containing "overwhelmed".  Without the
ReACT markers, and even with them, no ADVISOR is added — the keyword trigger
lives only in the shadowed first definition, which does add ADVISOR. -/
theorem C2_overwhelmed_requires_advisor_failing :
    (parse_coordinator_response "I feel overwhelmed").required_agents = ["PLANNER"] ∧
    "ADVISOR" ∉ (parse_coordinator_response "I feel overwhelmed").required_agents ∧
    "ADVISOR" ∉ (parse_coordinator_response
      "Thought: the student is Overwhelmed Decision: give support").required_agents ∧
    "ADVISOR" ∈ (parse_coordinator_response_shadowed "I feel overwhelmed").required_agents := by
  refine ⟨by decide, by decide, by decide, by decide⟩

/-- C8: every coordinator analysis the system can produce — the run-time
parse on any response, the `coordinator_agent` success wrapper, the parse
fallback, and the coordinator exception fallback — has a non-empty
`required_agents` containing PLANNER, a `priority` map containing PLANNER,
and non-empty `concurrent_groups`. -/
theorem C8_coordinator_analysis_invariant (response : String) :
    CoordinatorInvariant (parse_coordinator_response response) ∧
    CoordinatorInvariant (coordinator_agent_analysis response) ∧
    CoordinatorInvariant parse_fallback ∧
    CoordinatorInvariant coordinator_error_analysis := by
  have hp : ∀ r : String, CoordinatorInvariant (parse_coordinator_response r) := by
    intro r
    unfold parse_coordinator_response
    by_cases h1 : (strHasSub r "Thought:" && strHasSub r "Decision:") = true <;>
      by_cases h2 : (strHasSub r "NOTEWRITER" || strHasSub (strLower r) "note") = true <;>
        by_cases h3 : (strHasSub r "ADVISOR" || strHasSub (strLower r) "guidance") = true <;>
          simp [h1, h2, h3, CoordinatorInvariant, setKey]
  refine ⟨hp response, ?_, ?_, ?_⟩
  · have h := hp response
    simpa [coordinator_agent_analysis, CoordinatorInvariant] using h
  · simp [CoordinatorInvariant, parse_fallback]
  · simp [CoordinatorInvariant, coordinator_error_analysis]

/-- C7: the completion check at the `execute` node terminates the workflow
exactly when every lowercased required-agent name is among the keys of
`agent_outputs`, and otherwise routes back to the coordinator. -/
theorem C7_should_end_iff_required_subset (st : GraphState) :
    (should_end st = GraphRoute.stop ↔
      ∀ a ∈ requiredAgentsOf st, strLower a ∈ executedKeys st) ∧
    (should_end st = GraphRoute.coordinator ↔
      ¬ ∀ a ∈ requiredAgentsOf st, strLower a ∈ executedKeys st) := by
  unfold should_end
  by_cases h :
      ((requiredAgentsOf st).all (fun a => (executedKeys st).contains (strLower a))) = true
  · have hm : ∀ a ∈ requiredAgentsOf st, strLower a ∈ executedKeys st := by
      simpa using h
    simp [h, hm]
  · have hm : ¬ ∀ a ∈ requiredAgentsOf st, strLower a ∈ executedKeys st := by
      simpa using h
    simp [h, hm]

/-- C9: with a caller-supplied temperature of 0.0, `agenerate` forwards the
configured default 0.5 to the chat-completion call (`temperature or default`
treats 0.0 as falsy); any non-zero temperature is forwarded as given. -/
theorem C9_agenerate_zero_temperature_uses_default :
    (agenerateRequest (some 0)).temperature = default_temp ∧
    default_temp = 1/2 ∧
    (∀ t : Rat, t ≠ 0 → (agenerateRequest (some t)).temperature = t) := by
  refine ⟨by simp [agenerateRequest, pyOrTemp], by norm_num [default_temp], ?_⟩
  intro t ht
  simp [agenerateRequest, pyOrTemp, ht]

/-- Witness for C9: the zero and the non-zero cases evaluated at concrete
temperatures. -/
theorem C9_agenerate_zero_temperature_uses_default_witness :
    (agenerateRequest (some 0)).temperature = 1/2 ∧
    ((3 : Rat)/10 ≠ 0 ∧ (agenerateRequest (some (3/10))).temperature = 3/10) :=
  ⟨C9_agenerate_zero_temperature_uses_default.1.trans
      C9_agenerate_zero_temperature_uses_default.2.1,
    by norm_num,
    C9_agenerate_zero_temperature_uses_default.2.2 (3/10) (by norm_num)⟩

/-! Lemmas about the executor's group processing. -/

theorem foldl_results_skip_errors (l : List (String × Except Unit Val))
    (res : List (String × Val)) (h : ∀ p ∈ l, (p.2).isOk = false) :
    l.foldl (fun res p =>
      match p.2 with
      | Except.ok v => setKey res (strLower p.1) v
      | Except.error _ => res) res = res := by
  induction l generalizing res with
  | nil => simp
  | cons p rest ih =>
    obtain ⟨name, r⟩ := p
    have hp := h (name, r) (by simp)
    cases r with
    | ok v => simp [Except.isOk, Except.toBool] at hp
    | error e =>
      simp only [List.foldl_cons]
      exact ih res (fun q hq => h q (by simp [hq]))

theorem groupStep_no_ok (run : String → Except Unit Val) (required : List String)
    (res : List (String × Val)) (group : List String)
    (h : ∀ n ∈ groupLaunch required group, (run n).isOk = false) :
    groupStep run required res group = res := by
  unfold groupStep
  by_cases he : (groupLaunch required group).isEmpty = true
  · simp [he]
  · simp only [he, if_neg, Bool.false_eq_true, not_false_eq_true, if_false]
    apply foldl_results_skip_errors
    intro p hp
    have hmem : p.2 ∈ (groupLaunch required group).map run := (List.of_mem_zip hp).2
    obtain ⟨n, hn, he2⟩ := List.mem_map.mp hmem
    rw [← he2]
    exact h n hn

theorem exec_results_empty (run : String → Except Unit Val) (required : List String)
    (gs : List (List String))
    (h : ∀ g ∈ gs, ∀ n ∈ groupLaunch required g, (run n).isOk = false) :
    gs.foldl (groupStep run required) [] = [] := by
  induction gs with
  | nil => simp
  | cons g rest ih =>
    simp only [List.foldl_cons]
    rw [groupStep_no_ok run required [] g (h g (by simp))]
    exact ih (fun g' hg' => h g' (by simp [hg']))

/-- C3, amended: if every agent execution launched in every concurrent group
raises AND the fallback PLANNER execution also raises, `execute` returns
exactly the emergency fallback dictionary. -/
theorem C3_execute_total_failure_emergency (run : String → Except Unit Val)
    (analysis : Option ExecAnalysis)
    (hgroups : ∀ g ∈ executeGroups analysis,
      ∀ n ∈ groupLaunch (executeRequired analysis) g, (run n).isOk = false)
    (hplanner : (run "PLANNER").isOk = false) :
    execute run analysis = emergencyFallback := by
  simp only [execute]
  rw [exec_results_empty run (executeRequired analysis) (executeGroups analysis) hgroups]
  cases hp : run "PLANNER" with
  | ok v =>
    rw [hp] at hplanner
    simp [Except.isOk, Except.toBool] at hplanner
  | error e => simp [hp, executorAgents]

/-- Witness for the amended C3: every agent raises, so the result is the
emergency fallback. -/
theorem C3_execute_total_failure_emergency_witness :
    (runFail "PLANNER").isOk = false ∧ execute runFail analysisW3 = emergencyFallback :=
  ⟨rfl, C3_execute_total_failure_emergency runFail analysisW3 (fun _ _ _ _ => rfl) rfl⟩

/-- C3, counterexample to the claim as stated: every agent execution launched
in every concurrent group raises (NOTEWRITER, the only launched agent, always
raises), yet `execute` does not return the emergency fallback — the fallback
PLANNER call succeeds, so the planner's own output is returned instead. -/
theorem C3_execute_total_group_failure_counterexample :
    ((executeGroups analysisCE3).all (fun g =>
        (groupLaunch (executeRequired analysisCE3) g).all (fun n => !(runCE3 n).isOk))
      = true) ∧
    execute runCE3 analysisCE3 = wrapOutputs [("planner", Val.str "recovered plan")] ∧
    execute runCE3 analysisCE3 ≠ emergencyFallback := by
  have h3 : execute runCE3 analysisCE3 = wrapOutputs [("planner", Val.str "recovered plan")] :=
    rfl
  refine ⟨by decide, h3, ?_⟩
  rw [h3]
  simp [wrapOutputs, emergencyFallback]

/-- C4: with a single concurrent group of two distinct registered required
agents of which exactly one raises — in either order within the group —
`execute` returns only the surviving agent's output keyed by its lowercased
name (no exception escapes — the result is the normal wrapped output, not
the emergency fallback), and every agent launched by the call is both
required and registered.  `r` is the raising agent, `s` the survivor. -/
theorem C4_execute_partial_failure (run : String → Except Unit Val) (r s : String) (v : Val)
    (required : List String) (group : List String)
    (hrs : r ≠ s) (hr : r ∈ executorAgents) (hs : s ∈ executorAgents)
    (hreqr : r ∈ required) (hreqs : s ∈ required)
    (hfr : run r = Except.error ()) (hfs : run s = Except.ok v)
    (hgroup : group = [r, s] ∨ group = [s, r]) :
    execute run (some { required_agents := required, concurrent_groups := [group] }) =
      wrapOutputs [(strLower s, v)] ∧
    (∀ n ∈ executeLaunched run
        (some { required_agents := required, concurrent_groups := [group] }),
      n ∈ required ∧ n ∈ executorAgents) := by
  have hcr : required.contains r = true := by simp [hreqr]
  have hcs : required.contains s = true := by simp [hreqs]
  have her : executorAgents.contains r = true := by simp [hr]
  have hes : executorAgents.contains s = true := by simp [hs]
  have hlaunch : groupLaunch required group = group := by
    rcases hgroup with rfl | rfl
    · simp [groupLaunch, hcr, hcs, her, hes]
      exact ⟨⟨hreqr, hr⟩, hreqs, hs⟩
    · simp [groupLaunch, hcr, hcs, her, hes]
      exact ⟨⟨hreqs, hs⟩, hreqr, hr⟩
  have hstep : groupStep run required [] group = [(strLower s, v)] := by
    unfold groupStep
    rw [hlaunch]
    rcases hgroup with rfl | rfl
    · simp [hfr, hfs, setKey]
    · simp [hfr, hfs, setKey]
  have hmem : ∀ n ∈ group, n ∈ required ∧ n ∈ executorAgents := by
    intro n hn
    rcases hgroup with rfl | rfl
    · rcases List.mem_cons.mp hn with h1 | h1
      · subst h1
        exact ⟨hreqr, hr⟩
      · rcases List.mem_cons.mp h1 with h2 | h2
        · subst h2
          exact ⟨hreqs, hs⟩
        · simp at h2
    · rcases List.mem_cons.mp hn with h1 | h1
      · subst h1
        exact ⟨hreqs, hs⟩
      · rcases List.mem_cons.mp h1 with h2 | h2
        · subst h2
          exact ⟨hreqr, hr⟩
        · simp at h2
  constructor
  · simp only [execute, executeGroups, executeRequired, List.foldl_cons, List.foldl_nil]
    rw [hstep]
    simp
  · simp only [executeLaunched, executeGroups, executeRequired, List.foldl_cons,
      List.foldl_nil, List.nil_append]
    rw [hstep, hlaunch]
    simp only [List.isEmpty_cons, Bool.false_and, Bool.false_eq_true, if_false]
    exact hmem

/-- Witness for C4 in both group orderings: ADVISOR raises, PLANNER
survives; either way the result is exactly the planner's output under the
key "planner". -/
theorem C4_execute_partial_failure_witness :
    ("ADVISOR" : String) ≠ "PLANNER" ∧
    runC4 "ADVISOR" = Except.error () ∧
    runC4 "PLANNER" = Except.ok (Val.str "survivor plan") ∧
    execute runC4
        (some (ExecAnalysis.mk ["PLANNER", "ADVISOR"] [["ADVISOR", "PLANNER"]])) =
      wrapOutputs [(strLower "PLANNER", Val.str "survivor plan")] ∧
    execute runC4
        (some (ExecAnalysis.mk ["PLANNER", "ADVISOR"] [["PLANNER", "ADVISOR"]])) =
      wrapOutputs [(strLower "PLANNER", Val.str "survivor plan")] :=
  ⟨by decide, rfl, rfl,
    (C4_execute_partial_failure runC4 "ADVISOR" "PLANNER" (Val.str "survivor plan")
      ["PLANNER", "ADVISOR"] ["ADVISOR", "PLANNER"] (by decide) (by decide) (by decide)
      (by decide) (by decide) rfl rfl (Or.inl rfl)).1,
    (C4_execute_partial_failure runC4 "ADVISOR" "PLANNER" (Val.str "survivor plan")
      ["PLANNER", "ADVISOR"] ["PLANNER", "ADVISOR"] (by decide) (by decide) (by decide)
      (by decide) (by decide) rfl rfl (Or.inr rfl)).1⟩

/-- The event loop keeps exactly the events whose start instant parses into
the closed window, in source order. -/
theorem upcomingLoop_eq_filter (parseDT : String → Option Int) (now future : Int)
    (events : List Event) :
    upcomingLoop parseDT now future events =
      events.filter (fun e =>
        match eventStartTime parseDT e with
        | some t => now ≤ t && t ≤ future
        | none => false) := by
  induction events with
  | nil => simp [upcomingLoop]
  | cons e rest ih =>
    cases he : eventStartTime parseDT e with
    | none => simp [upcomingLoop, he, List.filter_cons, ih]
    | some t =>
      by_cases hw : (decide (now ≤ t) && decide (t ≤ future)) = true
      · simp [upcomingLoop, he, hw, List.filter_cons, ih]
      · simp [upcomingLoop, he, hw, List.filter_cons, ih]

/-- C5: `get_upcoming_events` returns exactly the events of the loaded
calendar whose parsed start instant lies in the closed interval from `now`
to `now + days` days, in source order (the result is a sublist of the
source); events with neither recognised shape, or whose fields fail to
parse, are excluded. -/
theorem C5_get_upcoming_events_window (parseDT : String → Option Int)
    (calendar_data : Option (List Event)) (now days : Int) :
    get_upcoming_events parseDT calendar_data now days =
      (calEvents calendar_data).filter (eventInWindow parseDT now days) ∧
    (∀ e, e ∈ get_upcoming_events parseDT calendar_data now days ↔
      e ∈ calEvents calendar_data ∧
        ∃ t, eventStartTime parseDT e = some t ∧ now ≤ t ∧ t ≤ now + days * 86400) ∧
    List.Sublist (get_upcoming_events parseDT calendar_data now days)
      (calEvents calendar_data) := by
  have key : get_upcoming_events parseDT calendar_data now days =
      (calEvents calendar_data).filter (eventInWindow parseDT now days) := by
    cases calendar_data with
    | none => simp [get_upcoming_events, calEvents]
    | some events =>
      simp only [get_upcoming_events, calEvents]
      rw [upcomingLoop_eq_filter]
      rfl
  refine ⟨key, ?_, ?_⟩
  · intro e
    rw [key, List.mem_filter]
    constructor
    · rintro ⟨hmem, hw⟩
      refine ⟨hmem, ?_⟩
      unfold eventInWindow at hw
      cases he : eventStartTime parseDT e with
      | none => rw [he] at hw; simp at hw
      | some t =>
        rw [he] at hw
        simp at hw
        exact ⟨t, rfl, hw.1, hw.2⟩
    · rintro ⟨hmem, t, ht, h1, h2⟩
      refine ⟨hmem, ?_⟩
      unfold eventInWindow
      rw [ht]
      simp [h1, h2]
  · rw [key]
    exact List.filter_sublist _

/-- Enriching `due_datetime` does not change the due-instant computation. -/
theorem taskDueTime_set_due_datetime (parseDT : String → Option Int) (t : TaskRec)
    (x : Option Int) :
    taskDueTime parseDT { t with due_datetime := x } = taskDueTime parseDT t := rfl

/-- Enriching `due_datetime` does not change the status check. -/
theorem taskStatusActive_set_due_datetime (t : TaskRec) (x : Option Int) :
    taskStatusActive { t with due_datetime := x } = taskStatusActive t := rfl

/-- The task loop leaves `processTask` of each record in the store and
returns the spec-side active list. -/
theorem activeLoop_eq (parseDT : String → Option Int) (now : Int) (l : List TaskRec) :
    activeLoop parseDT now l =
      (l.map (processTask parseDT now), activeTasksSpec parseDT now l) := by
  induction l with
  | nil => simp [activeLoop, activeTasksSpec]
  | cons task rest ih =>
    cases hd : taskDueTime parseDT task with
    | none =>
      simp [activeLoop, hd, ih, processTask, activeTasksSpec, List.filterMap_cons]
    | some d =>
      by_cases hc : taskStatusActive task = true ∧ now < d
      · simp [activeLoop, hd, hc, ih, processTask, activeTasksSpec, List.filterMap_cons]
      · simp [activeLoop, hd, hc, ih, processTask, activeTasksSpec, List.filterMap_cons]

/-- The returned `active_tasks` list of `get_active_tasks` is the spec-side
filter of the list the loop ran over. -/
theorem get_active_tasks_snd (parseDT : String → Option Int) (now : Int)
    (dm : DataManagerState) :
    (get_active_tasks parseDT now dm).2 =
      activeTasksSpec parseDT now (dmChosenTasks dm) := by
  obtain ⟨td⟩ := dm
  cases td with
  | none => simp [get_active_tasks, dmChosenTasks, activeTasksSpec]
  | some td =>
    by_cases he : td.assignments.isEmpty = true
    · simp [get_active_tasks, dmChosenTasks, chosenTaskList, he, activeLoop_eq]
    · simp [get_active_tasks, dmChosenTasks, chosenTaskList, he, activeLoop_eq]

/-- After `get_active_tasks`, the stored task list is the processed (possibly
enriched) version of the original records. -/
theorem get_active_tasks_fst (parseDT : String → Option Int) (now : Int)
    (dm : DataManagerState) :
    dmChosenTasks (get_active_tasks parseDT now dm).1 =
      (dmChosenTasks dm).map (processTask parseDT now) := by
  obtain ⟨td⟩ := dm
  cases td with
  | none => simp [get_active_tasks, dmChosenTasks]
  | some td =>
    by_cases he : td.assignments.isEmpty = true
    · simp [get_active_tasks, dmChosenTasks, chosenTaskList, he, activeLoop_eq]
    · have hm : ((td.assignments.map (processTask parseDT now)).isEmpty) = false := by
        cases ha : td.assignments with
        | nil => rw [ha] at he; simp at he
        | cons x xs => simp
      simp [get_active_tasks, dmChosenTasks, chosenTaskList, he, hm, activeLoop_eq]

/-- `processTask` on a task that passes both checks writes the enrichment. -/
theorem processTask_active (parseDT : String → Option Int) (now : Int) (t : TaskRec) (d : Int)
    (hd : taskDueTime parseDT t = some d)
    (hc : (taskStatusActive t && decide (now < d)) = true) :
    processTask parseDT now t = { t with due_datetime := some d } := by
  unfold processTask
  rw [hd]
  show (if (taskStatusActive t && decide (now < d)) = true then
      { t with due_datetime := some d } else t) = { t with due_datetime := some d }
  rw [if_pos hc]

/-- Membership in the spec-side active list: the element is an enriched
source record that passed the status and future-due checks. -/
theorem mem_activeTasksSpec (parseDT : String → Option Int) (now : Int)
    (l : List TaskRec) (t : TaskRec) (ht : t ∈ activeTasksSpec parseDT now l) :
    ∃ t0 ∈ l, ∃ d, taskDueTime parseDT t0 = some d ∧ taskStatusActive t0 = true ∧
      now < d ∧ t = { t0 with due_datetime := some d } := by
  unfold activeTasksSpec at ht
  rw [List.mem_filterMap] at ht
  obtain ⟨t0, hmem, hf⟩ := ht
  cases hd : taskDueTime parseDT t0 with
  | none => rw [hd] at hf; simp at hf
  | some d =>
    rw [hd] at hf
    have hf2 : (if (taskStatusActive t0 && decide (now < d)) = true then
        some { t0 with due_datetime := some d } else none) = some t := hf
    by_cases hc : (taskStatusActive t0 && decide (now < d)) = true
    · rw [if_pos hc] at hf2
      have ht0 := Option.some.inj hf2
      have hc2 : taskStatusActive t0 = true ∧ now < d := by simpa using hc
      exact ⟨t0, hmem, d, hd, hc2.1, hc2.2, ht0.symm⟩
    · rw [if_neg hc] at hf2
      simp at hf2

/-- C6: `get_active_tasks` returns exactly the tasks (in either supported
shape) whose status is in the active set and whose parsed due instant is
strictly in the future, each enriched with a `due_datetime` field equal to
that instant; tasks with neither shape or unparsable fields are skipped. -/
theorem C6_get_active_tasks_filter (parseDT : String → Option Int) (now : Int)
    (dm : DataManagerState) :
    (get_active_tasks parseDT now dm).2 =
      activeTasksSpec parseDT now (dmChosenTasks dm) ∧
    (∀ t ∈ (get_active_tasks parseDT now dm).2,
      taskStatusActive t = true ∧
        ∃ d, t.due_datetime = some d ∧ taskDueTime parseDT t = some d ∧ now < d) := by
  refine ⟨get_active_tasks_snd parseDT now dm, ?_⟩
  intro t ht
  rw [get_active_tasks_snd parseDT now dm] at ht
  obtain ⟨t0, hmem, d, hd, hs, hlt, rfl⟩ := mem_activeTasksSpec parseDT now _ t ht
  refine ⟨?_, d, rfl, ?_, hlt⟩
  · rw [taskStatusActive_set_due_datetime]
    exact hs
  · rw [taskDueTime_set_due_datetime]
    exact hd

/-- C10: `get_active_tasks` mutates the stored task records — afterwards the
store holds the processed records (with `due_datetime` written into every
active one), and each returned task is itself one of the stored post-call
records, carrying a non-absent `due_datetime`. -/
theorem C10_get_active_tasks_mutates_store (parseDT : String → Option Int) (now : Int)
    (dm : DataManagerState) :
    dmChosenTasks (get_active_tasks parseDT now dm).1 =
      (dmChosenTasks dm).map (processTask parseDT now) ∧
    (∀ t ∈ (get_active_tasks parseDT now dm).2,
      t ∈ dmChosenTasks (get_active_tasks parseDT now dm).1 ∧ t.due_datetime ≠ none) := by
  refine ⟨get_active_tasks_fst parseDT now dm, ?_⟩
  intro t ht
  rw [get_active_tasks_snd parseDT now dm] at ht
  obtain ⟨t0, hmem, d, hd, hs, hlt, rfl⟩ := mem_activeTasksSpec parseDT now _ t ht
  constructor
  · rw [get_active_tasks_fst parseDT now dm]
    refine List.mem_map.mpr ⟨t0, hmem, ?_⟩
    exact processTask_active parseDT now t0 d hd (by simp [hs, hlt])
  · simp

/-- Witness for C5: one event in the `start.dateTime` shape inside the
window is returned; the filter characterisation holds on this input. -/
theorem C5_get_upcoming_events_window_witness :
    get_upcoming_events parseDT0 (some [eventW5]) 0 7 =
      (calEvents (some [eventW5])).filter (eventInWindow parseDT0 0 7) ∧
    get_upcoming_events parseDT0 (some [eventW5]) 0 7 = [eventW5] :=
  ⟨(C5_get_upcoming_events_window parseDT0 (some [eventW5]) 0 7).1, by decide⟩

/-- Witness for C6: the in-progress future-due task is returned enriched,
and the per-task facts hold at that concrete task. -/
theorem C6_get_active_tasks_filter_witness :
    (get_active_tasks parseDTt 0 dm0).2 = [taskE] ∧
    (taskStatusActive taskE = true ∧
      ∃ d, taskE.due_datetime = some d ∧ taskDueTime parseDTt taskE = some d ∧ (0 : Int) < d) :=
  ⟨by decide, (C6_get_active_tasks_filter parseDTt 0 dm0).2 taskE (by decide)⟩

/-- Witness for C7: with PLANNER required and a "planner" output present,
the workflow terminates. -/
theorem C7_should_end_iff_required_subset_witness :
    should_end graphStW7 = GraphRoute.stop :=
  (C7_should_end_iff_required_subset graphStW7).1.mpr (by decide)

/-- Witness for C8: the invariant at a concrete narrative. -/
theorem C8_coordinator_analysis_invariant_witness :
    CoordinatorInvariant (parse_coordinator_response "I feel overwhelmed") ∧
    CoordinatorInvariant parse_fallback :=
  ⟨(C8_coordinator_analysis_invariant "I feel overwhelmed").1,
    (C8_coordinator_analysis_invariant "I feel overwhelmed").2.2.1⟩

/-- Witness for C10: the returned enriched task is itself in the post-call
store, with its `due_datetime` written. -/
theorem C10_get_active_tasks_mutates_store_witness :
    taskE ∈ dmChosenTasks (get_active_tasks parseDTt 0 dm0).1 ∧ taskE.due_datetime ≠ none :=
  (C10_get_active_tasks_mutates_store parseDTt 0 dm0).2 taskE (by decide)
